import Mathlib

/-!
Verification of the NFL SportsRadar query service.

The Python sources are shallowly embedded:
* `Value` models JSON-shaped Python data (dicts are insertion-ordered
  association lists with string keys, as in Python 3.7+).
* `App/services/Nfl_query_service.py` (`_classify_query`,
  `_fetch_relevant_data`, `get_data_sources`, `process_query`),
* `App/services/nfl_service.py` (`get_data` and the typed fetch
  operations; the upstream HTTP transport is a parameter
  `upstream : String → Except String Value`, and each fetch records the
  endpoint it hits so invocation counts can be stated),
* `App/services/LLm_service.py` (the context summarizers, the
  `json.dumps(·, indent=2)` serialization, the 20000-character
  truncation, and `generate_response` with the text-generation call as a
  parameter `llm`),
* `App/api/api_routes.py` (`with_cache`: key derivation
  `f"{name}:{str(args)}:{str(kwargs)}"` over int/string arguments —
  the argument types the wrapped routes take — and the expiry logic over
  the in-memory cache dict).

Python strings are modeled as `String`/`List Char`; `len` and slicing in
Python count characters (code points), as does `List Char` here.
Exceptions are modeled with `Except`/`Option`.
-/

namespace NFLRadar

/-- JSON-shaped Python value. Dicts keep insertion order (Python 3.7+) and
have string keys, which is all the repository's JSON payloads use.
Floats do not occur in the code paths under verification and are omitted. -/
inductive Value : Type where
  | null : Value
  | bool (b : Bool) : Value
  | int (n : Int) : Value
  | str (s : String) : Value
  | list (xs : List Value) : Value
  | dict (entries : List (String × Value)) : Value

/-- Python `d.get(k, default)` on a dict's entry list: first binding wins. -/
def dictGet (entries : List (String × Value)) (k : String) (default : Value) : Value :=
  match entries.find? (fun e => e.1 == k) with
  | some e => e.2
  | none => default

/-- Python `k in d` on a dict's entry list. -/
def dictHas (entries : List (String × Value)) (k : String) : Bool :=
  (entries.find? (fun e => e.1 == k)).isSome

/-- Python truthiness for `Value` (`if context_data:`): empty containers,
empty strings, zero, `False` and `None` are falsy. -/
def truthy : Value → Bool
  | .null => false
  | .bool b => b
  | .int n => n != 0
  | .str s => s.length != 0
  | .list xs => xs.length != 0
  | .dict entries => entries.length != 0

/-! ### `App/services/Nfl_query_service.py`: the intent classifier -/

/-- Python `query.lower()`: the query with each character lowercased
(`Char.toLower`, like `str.lower`, maps `A`–`Z` onto `a`–`z` and keeps the
characters the queries use fixed otherwise). -/
def pyLower (s : String) : String := String.mk (s.data.map Char.toLower)

/-- Python `needle in haystack` on strings: substring containment,
decided character by character. -/
def pyIn (needle haystack : List Char) : Bool :=
  haystack.tails.any (fun s => needle.isPrefixOf s)

/-- Python `any(term in query for term in terms)`: substring containment of
any of `terms` in `q`. -/
def containsAny (q : String) (terms : List String) : Bool :=
  terms.any (fun t => pyIn t.toList q.toList)

/-- The `re.search(r'20\d{2}', query)` scan: the leftmost occurrence of the
character `2`, then `0`, then two (ASCII) digits; `none` when no position
matches. Returns the matched four-character text, as `match.group(0)` does. -/
def yearAt : List Char → Option String
  | '2' :: '0' :: a :: b :: _ =>
    if a.isDigit && b.isDigit then some (String.mk ['2', '0', a, b]) else none
  | _ => none

/-- Leftmost-match search for the year pattern, as `re.search` performs it. -/
def findYearMatch : List Char → Option String
  | [] => none
  | c :: rest =>
    match yearAt (c :: rest) with
    | some y => some y
    | none => findYearMatch rest

/-- `NFLQueryService._classify_query`: lowercase the query (a local copy —
Python strings are immutable), then test five keyword groups in order;
the `injuries` group additionally records a `year` parameter when the
year pattern occurs. Query types are the literal strings the source uses. -/
def _classify_query (query : String) : String × List (String × String) :=
  let q := pyLower query
  let params : List (String × String) := []
  if containsAny q ["ranking", "rank", "best", "top", "projections"] then
    ("player_rankings", params)
  else if containsAny q ["matchup", "vs", "versus", "against", "playing"] then
    ("matchups", params)
  else if containsAny q ["injury", "injured", "hurt"] then
    match findYearMatch q.toList with
    | some y => ("injuries", [("year", y)])
    | none => ("injuries", params)
  else if containsAny q ["schedule", "games", "playing"] then
    ("schedule", params)
  else if containsAny q ["depth chart", "roster", "lineup"] then
    ("depth_chart", params)
  else
    ("general", params)

/-- Python `params.get("year", "2023")`. -/
def paramsGetD (params : List (String × String)) (k v : String) : String :=
  match params.find? (fun e => e.1 == k) with
  | some e => e.2
  | none => v

/-! ### `App/services/nfl_service.py`: the Data Gateway -/

/-- `NFLService.get_data`: strips a leading slash and performs the upstream
HTTP GET, modeled by the `upstream` function from endpoint paths to results
(an `Except` error stands for the `HTTPException` the source raises, its
string for `str(e)`). The singleton list records the upstream invocation,
so that theorems can count Data Gateway calls. -/
def get_data (upstream : String → Except String Value) (endpoint : String) :
    Except String Value × List String :=
  let ep := match endpoint.data with
    | '/' :: rest => String.mk rest
    | _ => endpoint
  (upstream ep, [ep])

/-- `NFLService.get_teams`. -/
def nfl_get_teams (upstream : String → Except String Value) :
    Except String Value × List String :=
  get_data upstream "en/league/hierarchy"

/-- `NFLService.get_schedule`. -/
def nfl_get_schedule (upstream : String → Except String Value)
    (year : Int) (season_type : String) : Except String Value × List String :=
  get_data upstream ("en/games/" ++ toString year ++ "/" ++ season_type ++ "/schedule")

/-- `NFLService.get_weekly_injuries`. -/
def nfl_get_weekly_injuries (upstream : String → Except String Value)
    (year season_type week : String) : Except String Value × List String :=
  get_data upstream ("en/seasons/" ++ year ++ "/" ++ season_type ++ "/" ++ week ++ "/injuries")

/-! ### `App/services/Nfl_query_service.py`: fetch dispatch and assembly -/

/-- `NFLQueryService._fetch_relevant_data`: resolve the query type to one
Data Gateway call with the source's default parameters; a fetch failure is
caught and replaced by a dict carrying only an `error` field. -/
def _fetch_relevant_data (upstream : String → Except String Value)
    (query_type : String) (params : List (String × String)) :
    Value × List String :=
  let fetched :=
    if query_type == "player_rankings" then
      nfl_get_teams upstream
    else if query_type == "matchups" then
      nfl_get_schedule upstream 2023 "REG"
    else if query_type == "injuries" then
      nfl_get_weekly_injuries upstream (paramsGetD params "year" "2023") "REG" "1"
    else if query_type == "schedule" then
      nfl_get_schedule upstream 2023 "REG"
    else if query_type == "depth_chart" then
      nfl_get_teams upstream
    else
      nfl_get_teams upstream
  match fetched with
  | (.ok v, calls) => (v, calls)
  | (.error e, calls) => (Value.dict [("error", Value.str e)], calls)

/-- `NFLQueryService.get_data_sources`: static intent-keyed labels. -/
def get_data_sources (query_type : String) : List String :=
  if query_type == "player_rankings" then ["NFL team and player data"]
  else if query_type == "matchups" then ["NFL schedule data"]
  else if query_type == "injuries" then ["NFL injury reports"]
  else if query_type == "schedule" then ["NFL team schedules"]
  else if query_type == "depth_chart" then ["NFL team rosters"]
  else if query_type == "general" then ["NFL general data"]
  else ["NFL API data"]

/-! ### `App/services/LLm_service.py`: context summarization -/

/-- Python `isinstance(v, list)`. -/
def isListV : Value → Bool
  | .list _ => true
  | _ => false

/-- Python `isinstance(v, dict)`. -/
def isDictV : Value → Bool
  | .dict _ => true
  | _ => false

/-- One row of `_summarize_teams_data`: the six kept fields, in the order the
source writes them. `none` models the `AttributeError` a non-dict entry
raises inside the `try` block. -/
def summTeam : Value → Option Value
  | .dict t => some (.dict
      [("id", dictGet t "id" (.str "")),
       ("name", dictGet t "name" (.str "")),
       ("market", dictGet t "market" (.str "")),
       ("alias", dictGet t "alias" (.str "")),
       ("conference", dictGet t "conference" (.str "")),
       ("division", dictGet t "division" (.str ""))])
  | _ => none

/-- `LLMService._summarize_teams_data`: first 20 teams, six fields each;
any exception inside the loop yields the fallback summary dict. -/
def _summarize_teams_data (data : List (String × Value)) : Value :=
  match dictGet data "teams" (.list []) with
  | .list ts =>
    match (ts.take 20).mapM summTeam with
    | some rows => .dict [("teams", .list rows)]
    | none => .dict [("summary", .str "Teams data available but could not be summarized")]
  | _ => .dict [("summary", .str "Teams data available but could not be summarized")]

/-- One team row of `_summarize_league_structure`. -/
def summLeagueTeam : Value → Option Value
  | .dict t => some (.dict
      [("name", dictGet t "name" (.str "")),
       ("market", dictGet t "market" (.str "")),
       ("alias", dictGet t "alias" (.str ""))])
  | _ => none

/-- One division row of `_summarize_league_structure`. -/
def summDivision : Value → Option Value
  | .dict d =>
    match dictGet d "teams" (.list []) with
    | .list ts =>
      match ts.mapM summLeagueTeam with
      | some rows => some (.dict
          [("name", dictGet d "name" (.str "")),
           ("alias", dictGet d "alias" (.str "")),
           ("teams", .list rows)])
      | none => none
    | _ => none
  | _ => none

/-- One conference row of `_summarize_league_structure`. -/
def summConference : Value → Option Value
  | .dict c =>
    match dictGet c "divisions" (.list []) with
    | .list ds =>
      match ds.mapM summDivision with
      | some rows => some (.dict
          [("name", dictGet c "name" (.str "")),
           ("alias", dictGet c "alias" (.str "")),
           ("divisions", .list rows)])
      | none => none
    | _ => none
  | _ => none

/-- `LLMService._summarize_league_structure`: conference/division/team names
and aliases, no numeric cap; exceptions yield the fallback summary. -/
def _summarize_league_structure (data : List (String × Value)) : Value :=
  match dictGet data "conferences" (.list []) with
  | .list cs =>
    match cs.mapM summConference with
    | some rows => .dict [("conferences", .list rows)]
    | none => .dict [("summary", .str "League structure data available but could not be summarized")]
  | _ => .dict [("summary", .str "League structure data available but could not be summarized")]

/-- The `game.get("home", {}).get(...)` sub-dict of `_summarize_schedule_data`. -/
def summGameSide (g : List (String × Value)) (key : String) : Option Value :=
  match dictGet g key (.dict []) with
  | .dict h => some (.dict
      [("name", dictGet h "name" (.str "")),
       ("alias", dictGet h "alias" (.str ""))])
  | _ => none

/-- One game row of `_summarize_schedule_data`. -/
def summGame : Value → Option Value
  | .dict g =>
    match summGameSide g "home", summGameSide g "away" with
    | some home, some away => some (.dict
        [("id", dictGet g "id" (.str "")),
         ("status", dictGet g "status" (.str "")),
         ("scheduled", dictGet g "scheduled" (.str "")),
         ("home_team", home),
         ("away_team", away)])
    | _, _ => none
  | _ => none

/-- `LLMService._summarize_schedule_data`: year, type and the first 10 games. -/
def _summarize_schedule_data (data : List (String × Value)) : Value :=
  match dictGet data "games" (.list []) with
  | .list gs =>
    match (gs.take 10).mapM summGame with
    | some rows => .dict
        [("year", dictGet data "year" (.str "")),
         ("type", dictGet data "type" (.str "")),
         ("games", .list rows)]
    | none => .dict [("summary", .str "Schedule data available but could not be summarized")]
  | _ => .dict [("summary", .str "Schedule data available but could not be summarized")]

/-- One player row of `_summarize_injury_data`. -/
def summPlayer : Value → Option Value
  | .dict p => some (.dict
      [("name", dictGet p "name" (.str "")),
       ("position", dictGet p "position" (.str "")),
       ("status", dictGet p "status" (.str "")),
       ("injury", dictGet p "injury" (.str ""))])
  | _ => none

/-- One team row of `_summarize_injury_data`: at most 10 players. -/
def summInjTeam : Value → Option Value
  | .dict t =>
    match dictGet t "players" (.list []) with
    | .list ps =>
      match (ps.take 10).mapM summPlayer with
      | some rows => some (.dict
          [("name", dictGet t "name" (.str "")),
           ("alias", dictGet t "alias" (.str "")),
           ("injuries", .list rows)])
      | none => none
    | _ => none
  | _ => none

/-- `LLMService._summarize_injury_data`: week and at most 10 teams, each with
at most 10 players. -/
def _summarize_injury_data (data : List (String × Value)) : Value :=
  match dictGet data "teams" (.list []) with
  | .list ts =>
    match (ts.take 10).mapM summInjTeam with
    | some rows => .dict
        [("week", dictGet data "week" (.str "")),
         ("teams_with_injuries", .list rows)]
    | none => .dict [("summary", .str "Injury data available but could not be summarized")]
  | _ => .dict [("summary", .str "Injury data available but could not be summarized")]

/-- `LLMService._create_generic_summary`: a shape probe over the first 10
top-level keys; for each list-valued key its length, and the first 5 field
names of a leading record element. -/
def _create_generic_summary (data : Value) : Value :=
  match data with
  | .dict entries =>
    let keys := (entries.map (·.1)).take 10
    let base := [("data_summary", Value.str "NFL data available"),
                 ("available_data", Value.list (keys.map Value.str))]
    let extra := (keys.map (fun k =>
      match dictGet entries k .null with
      | .list xs =>
        [(k ++ "_count", Value.int xs.length)] ++
        (match xs with
         | .dict d0 :: _ =>
           [(k ++ "_contains", Value.list (((d0.map (·.1)).take 5).map Value.str))]
         | _ => [])
      | _ => [])).flatten
    .dict (base ++ extra)
  | _ => .dict [("data_summary", Value.str "NFL data available")]

/-- `LLMService._summarize_context_data`: shape dispatch in the source's
fixed order. A non-dict input makes the initial `data.get` raise; the outer
handler converts that into the error summary (the `error` field stands for
`str(e)` of the raised exception). -/
def _summarize_context_data (data : Value) : Value :=
  match data with
  | .dict entries =>
    if dictHas entries "teams" && isListV (dictGet entries "teams" .null) then
      _summarize_teams_data entries
    else if dictHas entries "conferences" && isListV (dictGet entries "conferences" .null) then
      _summarize_league_structure entries
    else if dictHas entries "schedule" && isDictV (dictGet entries "schedule" .null) then
      _summarize_schedule_data entries
    else if dictHas entries "week" && dictHas entries "injuries" then
      _summarize_injury_data entries
    else
      _create_generic_summary (.dict entries)
  | _ => .dict
      [("summary", .str "Data available but could not be summarized due to an error"),
       ("error", .str "AttributeError")]

/-! ### `json.dumps(·, indent=2)` -/

/-- Decimal digit character. -/
def digitChar (n : Nat) : Char := Char.ofNat (48 + n)

/-- Decimal digits of `n`, most significant first; the first argument is
recursion fuel (`n` itself suffices). -/
def natReprAux : Nat → Nat → List Char
  | 0, _ => []
  | fuel + 1, n =>
    if n < 10 then [digitChar n]
    else natReprAux fuel (n / 10) ++ [digitChar (n % 10)]

/-- Python decimal rendering of a natural number. -/
def natRepr (n : Nat) : List Char := natReprAux (n + 1) n

/-- Python decimal rendering of an integer, as `str`/`repr`/`json.dumps`
all produce it. -/
def intRepr : Int → List Char
  | .ofNat n => natRepr n
  | .negSucc m => '-' :: natRepr (m + 1)

/-- Hexadecimal digit character (lowercase), for `\u00XX` escapes. -/
def hexChar (n : Nat) : Char := if n < 10 then Char.ofNat (48 + n) else Char.ofNat (87 + n)

/-- JSON string escaping of one character, as `json.dumps` performs it:
quote, backslash and the named control escapes, `\u00XX` for the other
control characters. (`ensure_ascii` escaping of characters above 0x7f is
not modeled; every string the claims touch is ASCII.) -/
def jsonEscChar (c : Char) : List Char :=
  if c = '"' then ['\\', '"']
  else if c = '\\' then ['\\', '\\']
  else if c = '\n' then ['\\', 'n']
  else if c = '\t' then ['\\', 't']
  else if c = '\r' then ['\\', 'r']
  else if c.toNat = 8 then ['\\', 'b']
  else if c.toNat = 12 then ['\\', 'f']
  else if c.toNat < 32 then
    ['\\', 'u', '0', '0', hexChar (c.toNat / 16), hexChar (c.toNat % 16)]
  else [c]

/-- JSON string escaping. -/
def jsonEsc (s : List Char) : List Char := (s.map jsonEscChar).flatten

/-- Indentation: `indent=2` puts `2*level` spaces before each element line. -/
def spacesFor (level : Nat) : List Char := List.replicate (2 * level) ' '

mutual

/-- `json.dumps(v, indent=2)`, at nesting depth `level` (the value itself
starts on the current line; its closing bracket is indented to `level`). -/
def dumpVal : Nat → Value → List Char
  | _, .null => ['n', 'u', 'l', 'l']
  | _, .bool true => ['t', 'r', 'u', 'e']
  | _, .bool false => ['f', 'a', 'l', 's', 'e']
  | _, .int n => intRepr n
  | _, .str s => '"' :: jsonEsc s.data ++ ['"']
  | _, .list [] => ['[', ']']
  | level, .list (x :: xs) =>
    '[' :: '\n' :: dumpItems (level + 1) (x :: xs) ++ '\n' :: spacesFor level ++ [']']
  | _, .dict [] => ['{', '}']
  | level, .dict (e :: es) =>
    '{' :: '\n' :: dumpEntries (level + 1) (e :: es) ++ '\n' :: spacesFor level ++ ['}']

/-- The comma-and-newline separated element lines of a JSON array. -/
def dumpItems : Nat → List Value → List Char
  | _, [] => []
  | level, [x] => spacesFor level ++ dumpVal level x
  | level, x :: y :: xs =>
    spacesFor level ++ dumpVal level x ++ ',' :: '\n' :: dumpItems level (y :: xs)

/-- The comma-and-newline separated `"key": value` lines of a JSON object. -/
def dumpEntries : Nat → List (String × Value) → List Char
  | _, [] => []
  | level, [(k, v)] =>
    spacesFor level ++ '"' :: jsonEsc k.data ++ '"' :: ':' :: ' ' :: dumpVal level v
  | level, (k, v) :: e :: es =>
    spacesFor level ++ '"' :: jsonEsc k.data ++ '"' :: ':' :: ' ' :: dumpVal level v ++
      ',' :: '\n' :: dumpEntries level (e :: es)

end

/-- `json.dumps(v, indent=2)` of a whole value. -/
def jsonDumps (v : Value) : List Char := dumpVal 0 v

/-! ### `LLMService.generate_response`: context sizing and the fallback -/

/-- The fixed text in front of the serialized context data. -/
def contextHeader : String := "Here is the relevant NFL data:\n"

/-- The truncation marker appended when the context exceeds the ceiling. -/
def TRUNC_MARKER : String := "...[additional data truncated for size]"

/-- The `context_str` of `generate_response` before the size check. -/
def contextStrRaw (context_data : Value) : List Char :=
  contextHeader.data ++ jsonDumps (_summarize_context_data context_data)

/-- The size limitation of `generate_response`: over 20000 characters, keep
the first 20000 and append the marker (`context_str[:20000] + marker`). -/
def limitContextStr (s : List Char) : List Char :=
  if 20000 < s.length then s.take 20000 ++ TRUNC_MARKER.data else s

/-- The serialized textual context a truthy `context_data` contributes. -/
def contextStr (context_data : Value) : List Char :=
  limitContextStr (contextStrRaw context_data)

/-- One chat message of the generation request. -/
structure Message where
  role : String
  content : String

/-- The fixed system prompt of `generate_response`. -/
def systemMessage : String :=
  "You are an NFL analytics expert providing insights based on official NFL data. " ++
  "Focus on providing accurate, data-driven analysis in a conversational tone. " ++
  "When responding:\n" ++
  "1. Summarize key information from the data\n" ++
  "2. Provide relevant statistics\n" ++
  "3. Offer context about teams, players, or matchups\n" ++
  "4. Cite your sources as 'Based on official NFL data.'"

/-- The message list `generate_response` sends: the system prompt, the
summarized context as a second system message when `context_data` is truthy
(Python `if context_data:`), and the user's query. -/
def buildMessages (query : String) (context_data : Value) : List Message :=
  ([⟨"system", systemMessage⟩] ++
    (if truthy context_data then [⟨"system", String.mk (contextStr context_data)⟩] else [])) ++
  [⟨"user", query⟩]

/-- The fixed leading text of the apologetic fallback answer. -/
def fallbackHead : String := "Sorry, I couldn't process your request at the moment. Error: "

/-- `LLMService.generate_response`. The whole HTTP exchange — the POST, the
status check and the extraction of `result['choices'][0]['message']['content']`
— happens inside the `try` block and is modeled by the `llm` parameter; an
`Except.error e` stands for any exception raised there, its string for
`str(e)`. On failure the apologetic fallback string is returned. -/
def generate_response (llm : List Message → Except String String)
    (query : String) (context_data : Value) : String :=
  match llm (buildMessages query context_data) with
  | .ok content => content
  | .error e => fallbackHead ++ e

/-! ### `NFLQueryService.process_query` -/

/-- The mapping `process_query` returns. -/
structure QueryResponse where
  query : String
  answer : String
  data_sources : List String

/-- `NFLQueryService.process_query`: classify, fetch (through
`_fetch_relevant_data`), generate, assemble. The second component is the
list of upstream Data Gateway endpoints hit while serving the question. -/
def process_query (upstream : String → Except String Value)
    (llm : List Message → Except String String) (query : String) :
    QueryResponse × List String :=
  let classified := _classify_query query
  let fetched := _fetch_relevant_data upstream classified.1 classified.2
  let llm_response := generate_response llm query fetched.1
  (⟨query, llm_response, get_data_sources classified.1⟩, fetched.2)

/-! ### `App/api/api_routes.py`: the `with_cache` layer

The wrapped route handlers take `int` and `str` parameters only, so the
argument model covers those two Python types. The key is the f-string
`f"{func.__name__}:{str(args)}:{str(kwargs)}"`; `str` of a tuple or dict
renders each element with `repr`. -/

/-- An argument of a cached operation: the Python value kinds the wrapped
routes receive. -/
inductive PyArg : Type where
  | int (n : Int) : PyArg
  | str (s : String) : PyArg
deriving DecidableEq

/-- The quote character Python `repr` picks for a string: a double quote
when the text holds a single quote and no double quote, else a single
quote. -/
def pyQuote (s : List Char) : Char :=
  if s.contains '\'' && !(s.contains '"') then '"' else '\''

/-- Backslash-escaping of the backslash and of the chosen quote, as `repr`
performs it. (Control and non-ASCII characters, which `repr` additionally
escapes, do not occur in the route arguments and are not modeled.) -/
def escWith (q : Char) (s : List Char) : List Char :=
  (s.map (fun c => if c = '\\' || c = q then ['\\', c] else [c])).flatten

/-- Python `repr` of a string. -/
def strRepr (s : String) : List Char :=
  pyQuote s.data :: escWith (pyQuote s.data) s.data ++ [pyQuote s.data]

/-- Python `repr` of a route argument. -/
def pyRepr : PyArg → List Char
  | .int n => intRepr n
  | .str s => strRepr s

/-- The `, `-separated element renderings inside a tuple or list display. -/
def elemsRepr : List PyArg → List Char
  | [] => []
  | [v] => pyRepr v
  | v :: w :: vs => pyRepr v ++ ',' :: ' ' :: elemsRepr (w :: vs)

/-- Python `str(args)` of the positional-argument tuple: `()`, `(x,)` with
the trailing comma, or `(x, y, …)`. -/
def strTuple (args : List PyArg) : List Char :=
  match args with
  | [] => ['(', ')']
  | [v] => '(' :: pyRepr v ++ [',', ')']
  | v :: w :: vs => '(' :: elemsRepr (v :: w :: vs) ++ [')']

/-- The `, `-separated `'key': value` renderings inside a dict display. -/
def kwEntriesRepr : List (String × PyArg) → List Char
  | [] => []
  | [(k, v)] => strRepr k ++ ':' :: ' ' :: pyRepr v
  | (k, v) :: e :: es => strRepr k ++ ':' :: ' ' :: pyRepr v ++ ',' :: ' ' :: kwEntriesRepr (e :: es)

/-- Python `str(kwargs)` of the keyword-argument dict, in keyword order. -/
def strDict (kwargs : List (String × PyArg)) : List Char :=
  '{' :: kwEntriesRepr kwargs ++ ['}']

/-- The cache key `f"{func.__name__}:{str(args)}:{str(kwargs)}"`. -/
def cacheKey (funcName : String) (args : List PyArg) (kwargs : List (String × PyArg)) :
    List Char :=
  funcName.data ++ ':' :: (strTuple args ++ ':' :: strDict kwargs)

/-- The module-level `cache` dict: key, then the `(timestamp, value)` pair.
Timestamps and expiries are integers (e.g. seconds); only their ordering
and differences matter to the source. -/
def CacheMap : Type := List (List Char × (Int × Value))

/-- Python `key in cache` / `cache[key]` combined: the stored entry. -/
def cacheLookup (cache : CacheMap) (key : List Char) : Option (Int × Value) :=
  match (List.find? (fun e => e.1 == key) cache) with
  | some e => some e.2
  | none => none

/-- Python `cache[key] = entry`: replace the existing binding in place, or
append a new one. -/
def cacheInsert (cache : CacheMap) (key : List Char) (entry : Int × Value) : CacheMap :=
  match cache with
  | [] => [(key, entry)]
  | e :: es => if e.1 == key then (key, entry) :: es else e :: cacheInsert es key entry

/-- The body of the `with_cache(expiry)` wrapper around one call. `func` is
the wrapped asynchronous producer (`Except.error` models it raising);
`now` is `datetime.now()` during this call. The result is the call's
outcome, the cache afterwards, and whether `func` was invoked:
a fresh entry (`now - timestamp < expiry`) is returned without invoking
`func`; otherwise `func` runs and, on success, `(now, result)` is stored
under the key; a raise propagates and stores nothing. -/
def withCache (expiry : Int) (funcName : String) (args : List PyArg)
    (kwargs : List (String × PyArg)) (now : Int) (func : Except String Value)
    (cache : CacheMap) : Except String Value × CacheMap × Bool :=
  let key := cacheKey funcName args kwargs
  match cacheLookup cache key with
  | some (timestamp, value) =>
    if now - timestamp < expiry then
      (.ok value, cache, false)
    else
      match func with
      | .ok result => (.ok result, cacheInsert cache key (now, result), true)
      | .error e => (.error e, cache, true)
  | none =>
    match func with
    | .ok result => (.ok result, cacheInsert cache key (now, result), true)
    | .error e => (.error e, cache, true)

/-! ### The classifier as the specification words it (for refinement) -/

/-- Modelled from the spec: the five ordered rule groups of §4.2, each a
keyword list paired with the query-type it yields. -/
def specGroups : List (List String × String) :=
  [(["ranking", "rank", "best", "top", "projections"], "player_rankings"),
   (["matchup", "vs", "versus", "against", "playing"], "matchups"),
   (["injury", "injured", "hurt"], "injuries"),
   (["schedule", "games", "playing"], "schedule"),
   (["depth chart", "roster", "lineup"], "depth_chart")]

/-- Modelled from the spec: case-insensitive matching against the five
ordered groups, the first group with any matching keyword winning, and
`general` when no group matches. -/
def classifySpecModel (query : String) : String :=
  match specGroups.find? (fun g => containsAny (pyLower query) g.1) with
  | some g => g.2
  | none => "general"

/-! ### Small auxiliary definitions used by the theorems -/

/-- Decimal digit test by character code (48–57). -/
def isDigitCh (c : Char) : Bool := 48 ≤ c.toNat && c.toNat ≤ 57

/-- Numeric value of a decimal digit character. -/
def charVal (c : Char) : Nat := c.toNat - 48

/-- Value of a most-significant-first decimal digit string. -/
def decVal (l : List Char) : Nat := l.foldl (fun a c => 10 * a + charVal c) 0

/-- A context bundle holding one team whose name is `n` characters long:
the team-summary reduction keeps the name in full, so the serialized
context grows with `n`. -/
def longTeamsBundle (n : Nat) : Value :=
  .dict [("teams", .list [.dict [("name", .str (String.mk (List.replicate n 'a')))]])]

/-! ## Helper lemmas -/

/-- `Char.ofNat` of a valid code point decodes back to that code point. -/
theorem toNat_ofNat_valid (n : Nat) (h : n.isValidChar) : (Char.ofNat n).toNat = n := by
  simp [Char.ofNat, dif_pos h, Char.ofNatAux, Char.toNat, UInt32.toNat, BitVec.toNat_ofNatLt]

/-- Lowercasing a character twice equals lowercasing it once. -/
theorem toLower_idem (c : Char) : c.toLower.toLower = c.toLower := by
  unfold Char.toLower
  by_cases h : c.toNat ≥ 65 ∧ c.toNat ≤ 90
  · rw [if_pos h]
    have hv : (c.toNat + 32).isValidChar := Or.inl (by omega)
    rw [toNat_ofNat_valid _ hv, if_neg (by omega)]
  · rw [if_neg h, if_neg h]

/-- `pyLower` is idempotent. -/
theorem pyLower_idem (s : String) : pyLower (pyLower s) = pyLower s := by
  simp [pyLower, List.map_map, Function.comp_def, toLower_idem]

/-- Splitting equal concatenations at a predicate boundary: when both left
parts satisfy `p` throughout and both right parts open with a character
violating `p`, the split points coincide. -/
theorem run_sep {p : Char → Bool} :
    ∀ l1 l2 r1 r2 : List Char, (∀ c ∈ l1, p c) → (∀ c ∈ l2, p c) →
    (∀ c, r1.head? = some c → p c = false) → (∀ c, r2.head? = some c → p c = false) →
    l1 ++ r1 = l2 ++ r2 → l1 = l2 ∧ r1 = r2
  | [], [], r1, r2, _, _, _, _, h => ⟨rfl, h⟩
  | [], c :: l2, r1, r2, _, h2, hr1, _, h => by
    have hp := h2 c (List.mem_cons_self c l2)
    have hr : r1.head? = some c := by rw [List.nil_append] at h; rw [h]; rfl
    have := hr1 c hr
    simp_all
  | c :: l1, [], r1, r2, h1, _, _, hr2, h => by
    have hp := h1 c (List.mem_cons_self c l1)
    have hr : r2.head? = some c := by rw [List.nil_append] at h; rw [← h]; rfl
    have := hr2 c hr
    simp_all
  | c1 :: l1, c2 :: l2, r1, r2, h1, h2, hr1, hr2, h => by
    simp only [List.cons_append, List.cons.injEq] at h
    obtain ⟨rfl, htail⟩ := h
    have ih := run_sep l1 l2 r1 r2 (fun c hc => h1 c (List.mem_cons_of_mem _ hc))
      (fun c hc => h2 c (List.mem_cons_of_mem _ hc)) hr1 hr2 htail
    exact ⟨by rw [ih.1], ih.2⟩

/-- Code point of a decimal digit character. -/
theorem digitChar_toNat (d : Nat) (h : d < 10) : (digitChar d).toNat = 48 + d :=
  toNat_ofNat_valid _ (Or.inl (by omega))

/-- `charVal` decodes `digitChar`. -/
theorem charVal_digitChar (d : Nat) (h : d < 10) : charVal (digitChar d) = d := by
  simp [charVal, digitChar_toNat d h]

/-- `digitChar` of a digit is a digit character. -/
theorem isDigitCh_digitChar (d : Nat) (h : d < 10) : isDigitCh (digitChar d) = true := by
  simp only [isDigitCh, digitChar_toNat d h]
  simp only [Bool.and_eq_true, decide_eq_true_eq]
  omega

/-- Every character `natReprAux` emits is a decimal digit. -/
theorem natReprAux_digits : ∀ fuel n : Nat, ∀ c ∈ natReprAux fuel n, isDigitCh c = true := by
  intro fuel
  induction fuel with
  | zero => intro n c hc; simp [natReprAux] at hc
  | succ fuel ih =>
    intro n c hc
    rw [natReprAux] at hc
    by_cases h : n < 10
    · rw [if_pos h] at hc
      simp only [List.mem_singleton] at hc
      subst hc
      exact isDigitCh_digitChar n h
    · rw [if_neg h] at hc
      rcases List.mem_append.mp hc with h' | h'
      · exact ih _ c h'
      · simp only [List.mem_singleton] at h'
        subst h'
        exact isDigitCh_digitChar _ (Nat.mod_lt _ (by omega))

/-- Appending one digit multiplies the decoded value by ten. -/
theorem decVal_append (l : List Char) (c : Char) :
    decVal (l ++ [c]) = 10 * decVal l + charVal c := by
  simp [decVal, List.foldl_append]

/-- `decVal` decodes `natReprAux` given enough fuel. -/
theorem decVal_natReprAux : ∀ fuel n : Nat, n < fuel → decVal (natReprAux fuel n) = n := by
  intro fuel
  induction fuel with
  | zero => intro n h; omega
  | succ fuel ih =>
    intro n h
    rw [natReprAux]
    by_cases h10 : n < 10
    · rw [if_pos h10]
      simp [decVal, charVal_digitChar n h10]
    · rw [if_neg h10]
      have hdiv : n / 10 < n := Nat.div_lt_self (by omega) (by omega)
      rw [decVal_append, ih (n / 10) (by omega), charVal_digitChar _ (Nat.mod_lt _ (by omega))]
      omega

/-- `decVal` decodes `natRepr`. -/
theorem decVal_natRepr (n : Nat) : decVal (natRepr n) = n :=
  decVal_natReprAux (n + 1) n (Nat.lt_succ_self n)

/-- Decimal rendering of naturals is injective. -/
theorem natRepr_inj {a b : Nat} (h : natRepr a = natRepr b) : a = b := by
  rw [← decVal_natRepr a, h, decVal_natRepr]

/-- Every character of `natRepr` is a decimal digit. -/
theorem natRepr_digits (n : Nat) : ∀ c ∈ natRepr n, isDigitCh c = true :=
  natReprAux_digits (n + 1) n

/-- `natRepr` is never empty. -/
theorem natRepr_ne_nil (n : Nat) : natRepr n ≠ [] := by
  rw [natRepr, natReprAux]
  by_cases h : n < 10
  · rw [if_pos h]; simp
  · rw [if_neg h]; simp

/-- The minus sign is not a digit character. -/
theorem isDigitCh_minus : isDigitCh '-' = false := by decide

/-- Integer decimal renderings separate from non-digit continuations. -/
theorem intRepr_append_inj : ∀ (m n : Int) (r1 r2 : List Char),
    (∀ c, r1.head? = some c → isDigitCh c = false) →
    (∀ c, r2.head? = some c → isDigitCh c = false) →
    intRepr m ++ r1 = intRepr n ++ r2 → m = n ∧ r1 = r2 := by
  have natSide : ∀ (a b : Nat) (r1 r2 : List Char),
      (∀ c, r1.head? = some c → isDigitCh c = false) →
      (∀ c, r2.head? = some c → isDigitCh c = false) →
      natRepr a ++ r1 = natRepr b ++ r2 → a = b ∧ r1 = r2 := by
    intro a b r1 r2 hr1 hr2 h
    obtain ⟨h1, h2⟩ := run_sep (p := isDigitCh) _ _ _ _ (natRepr_digits a) (natRepr_digits b) hr1 hr2 h
    exact ⟨natRepr_inj h1, h2⟩
  intro m n r1 r2 hr1 hr2 h
  match m, n with
  | .ofNat a, .ofNat b =>
    obtain ⟨h1, h2⟩ := natSide a b r1 r2 hr1 hr2 h
    exact ⟨by rw [h1], h2⟩
  | .negSucc a, .negSucc b =>
    simp only [intRepr, List.cons_append, List.cons.injEq] at h
    obtain ⟨h1, h2⟩ := natSide (a + 1) (b + 1) r1 r2 hr1 hr2 h.2
    have : a = b := by omega
    exact ⟨by rw [this], h2⟩
  | .ofNat a, .negSucc b =>
    exfalso
    obtain ⟨c, t, hct⟩ := List.exists_cons_of_ne_nil (natRepr_ne_nil a)
    have hc : isDigitCh c = true := natRepr_digits a c (by rw [hct]; exact List.mem_cons_self c t)
    simp only [intRepr, hct, List.cons_append, List.cons.injEq] at h
    rw [h.1] at hc
    rw [isDigitCh_minus] at hc
    exact Bool.false_ne_true hc
  | .negSucc a, .ofNat b =>
    exfalso
    obtain ⟨c, t, hct⟩ := List.exists_cons_of_ne_nil (natRepr_ne_nil b)
    have hc : isDigitCh c = true := natRepr_digits b c (by rw [hct]; exact List.mem_cons_self c t)
    simp only [intRepr, hct, List.cons_append, List.cons.injEq] at h
    rw [← h.1] at hc
    rw [isDigitCh_minus] at hc
    exact Bool.false_ne_true hc

/-- The quote `repr` picks is never a backslash. -/
theorem pyQuote_ne_backslash (s : List Char) : pyQuote s ≠ '\\' := by
  unfold pyQuote
  split <;> decide

/-- The quote `repr` picks is one of the two quote characters. -/
theorem pyQuote_cases (s : List Char) : pyQuote s = '\'' ∨ pyQuote s = '"' := by
  unfold pyQuote
  split
  · exact Or.inr rfl
  · exact Or.inl rfl

/-- Escaped bodies followed by the closing quote decode uniquely. -/
theorem escWith_append_inj (q : Char) (hq : q ≠ '\\') :
    ∀ s1 s2 r1 r2 : List Char,
    escWith q s1 ++ q :: r1 = escWith q s2 ++ q :: r2 → s1 = s2 ∧ r1 = r2 := by
  intro s1
  induction s1 with
  | nil =>
    intro s2 r1 r2 h
    cases s2 with
    | nil =>
      simp only [escWith, List.map_nil, List.flatten_nil, List.nil_append,
        List.cons.injEq] at h
      exact ⟨rfl, h.2⟩
    | cons c s2' =>
      exfalso
      simp only [escWith, List.map_nil, List.flatten_nil, List.nil_append, List.map_cons,
        List.flatten_cons, List.append_assoc] at h
      by_cases hc : (c = '\\' || c = q) = true
      · rw [if_pos hc] at h
        simp only [List.cons_append, List.cons.injEq] at h
        exact hq h.1
      · rw [if_neg hc] at h
        simp only [List.cons_append, List.cons.injEq] at h
        simp only [Bool.or_eq_true, decide_eq_true_eq, not_or] at hc
        exact hc.2 h.1.symm
  | cons c1 s1' ih =>
    intro s2 r1 r2 h
    cases s2 with
    | nil =>
      exfalso
      simp only [escWith, List.map_nil, List.flatten_nil, List.nil_append, List.map_cons,
        List.flatten_cons, List.append_assoc] at h
      by_cases hc : (c1 = '\\' || c1 = q) = true
      · rw [if_pos hc] at h
        simp only [List.cons_append, List.cons.injEq] at h
        exact hq h.1.symm
      · rw [if_neg hc] at h
        simp only [List.cons_append, List.cons.injEq] at h
        simp only [Bool.or_eq_true, decide_eq_true_eq, not_or] at hc
        exact hc.2 h.1
    | cons c2 s2' =>
      simp only [escWith, List.map_cons, List.flatten_cons, List.append_assoc] at h ⊢
      by_cases hc1 : (c1 = '\\' || c1 = q) = true <;>
        by_cases hc2 : (c2 = '\\' || c2 = q) = true
      · rw [if_pos hc1, if_pos hc2] at h
        simp only [List.cons_append, List.cons.injEq] at h
        obtain ⟨-, rfl, htail⟩ := h
        obtain ⟨rfl, hr⟩ := ih s2' r1 r2 (by simpa [escWith] using htail)
        exact ⟨rfl, hr⟩
      · exfalso
        rw [if_pos hc1, if_neg hc2] at h
        simp only [List.cons_append, List.cons.injEq] at h
        simp only [Bool.or_eq_true, decide_eq_true_eq, not_or] at hc2
        exact hc2.1 h.1.symm
      · exfalso
        rw [if_neg hc1, if_pos hc2] at h
        simp only [List.cons_append, List.cons.injEq] at h
        simp only [Bool.or_eq_true, decide_eq_true_eq, not_or] at hc1
        exact hc1.1 h.1
      · rw [if_neg hc1, if_neg hc2] at h
        simp only [List.cons_append, List.cons.injEq] at h
        obtain ⟨rfl, htail⟩ := h
        obtain ⟨rfl, hr⟩ := ih s2' r1 r2 (by simpa [escWith] using htail)
        exact ⟨rfl, hr⟩

/-- String `repr` renderings separate from arbitrary continuations. -/
theorem strRepr_append_inj : ∀ (s1 s2 : String) (r1 r2 : List Char),
    strRepr s1 ++ r1 = strRepr s2 ++ r2 → s1 = s2 ∧ r1 = r2 := by
  intro s1 s2 r1 r2 h
  simp only [strRepr, List.cons_append, List.append_assoc, List.cons.injEq] at h
  obtain ⟨hq, hbody⟩ := h
  rw [hq] at hbody
  have hsep := escWith_append_inj (pyQuote s2.data) (pyQuote_ne_backslash _)
    s1.data s2.data r1 r2 (by simpa using hbody)
  refine ⟨?_, hsep.2⟩
  cases s1
  cases s2
  exact congrArg String.mk (by simpa using hsep.1)

/-- The first character of an integer rendering: a digit or the minus sign. -/
theorem intRepr_head (m : Int) :
    ∃ c t, intRepr m = c :: t ∧ (isDigitCh c = true ∨ c = '-') := by
  match m with
  | .ofNat a =>
    obtain ⟨c, t, hct⟩ := List.exists_cons_of_ne_nil (natRepr_ne_nil a)
    exact ⟨c, t, hct, Or.inl (natRepr_digits a c (by rw [hct]; exact List.mem_cons_self c t))⟩
  | .negSucc a => exact ⟨'-', natRepr (a + 1), rfl, Or.inr rfl⟩

/-- The first character of any argument rendering: digit, minus or quote. -/
theorem pyRepr_head (v : PyArg) :
    ∃ c t, pyRepr v = c :: t ∧
      (isDigitCh c = true ∨ c = '-' ∨ c = '\'' ∨ c = '"') := by
  match v with
  | .int m =>
    obtain ⟨c, t, hct, hc⟩ := intRepr_head m
    exact ⟨c, t, hct, hc.elim Or.inl (fun h => Or.inr (Or.inl h))⟩
  | .str s =>
    refine ⟨pyQuote s.data, _, rfl, ?_⟩
    rcases pyQuote_cases s.data with h | h
    · exact Or.inr (Or.inr (Or.inl h))
    · exact Or.inr (Or.inr (Or.inr h))

/-- Argument renderings separate from non-digit continuations. -/
theorem pyRepr_append_inj : ∀ (v1 v2 : PyArg) (r1 r2 : List Char),
    (∀ c, r1.head? = some c → isDigitCh c = false) →
    (∀ c, r2.head? = some c → isDigitCh c = false) →
    pyRepr v1 ++ r1 = pyRepr v2 ++ r2 → v1 = v2 ∧ r1 = r2 := by
  intro v1 v2 r1 r2 hr1 hr2 h
  match v1, v2 with
  | .int m, .int n =>
    obtain ⟨h1, h2⟩ := intRepr_append_inj m n r1 r2 hr1 hr2 h
    exact ⟨by rw [h1], h2⟩
  | .str s1, .str s2 =>
    obtain ⟨h1, h2⟩ := strRepr_append_inj s1 s2 r1 r2 h
    exact ⟨by rw [h1], h2⟩
  | .int m, .str s =>
    exfalso
    obtain ⟨c, t, hct, hc⟩ := intRepr_head m
    simp only [pyRepr, hct, strRepr, List.cons_append, List.cons.injEq] at h
    rcases pyQuote_cases s.data with hq | hq <;> rw [hq] at h <;>
      rcases hc with hc | hc <;> simp [h.1] at hc <;> simp_all [isDigitCh]
  | .str s, .int m =>
    exfalso
    obtain ⟨c, t, hct, hc⟩ := intRepr_head m
    simp only [pyRepr, hct, strRepr, List.cons_append, List.cons.injEq] at h
    rcases pyQuote_cases s.data with hq | hq <;> rw [hq] at h <;>
      rcases hc with hc | hc <;> simp [← h.1] at hc <;> simp_all [isDigitCh]

/-- A list starting with a fixed non-digit character never opens with a digit. -/
theorem head_const_notDigit (c0 : Char) (h0 : isDigitCh c0 = false) (r : List Char) :
    ∀ c, (c0 :: r).head? = some c → isDigitCh c = false := by
  intro c hc
  simp only [List.head?_cons, Option.some.injEq] at hc
  rw [← hc]
  exact h0

/-- A list opening with a character outside the argument-rendering head set
is no argument rendering continuation. -/
theorem cons_ne_pyRepr_append (v : PyArg) (c0 : Char) (X r : List Char)
    (h1 : isDigitCh c0 = false) (h2 : c0 ≠ '-') (h3 : c0 ≠ '\'') (h4 : c0 ≠ '"') :
    c0 :: r ≠ pyRepr v ++ X := by
  intro h
  obtain ⟨c, t, hct, hc⟩ := pyRepr_head v
  rw [hct, List.cons_append] at h
  injection h with hh _
  subst hh
  rcases hc with hc | hc | hc | hc
  · rw [h1] at hc; exact Bool.false_ne_true hc
  · exact h2 hc
  · exact h3 hc
  · exact h4 hc

/-- A list opening with a non-quote character is no string rendering
continuation. -/
theorem cons_ne_strRepr_append (k : String) (c0 : Char) (X r : List Char)
    (h3 : c0 ≠ '\'') (h4 : c0 ≠ '"') : c0 :: r ≠ strRepr k ++ X := by
  intro h
  simp only [strRepr, List.cons_append] at h
  injection h with hh _
  rcases pyQuote_cases k.data with hq | hq
  · rw [hq] at hh; exact h3 hh
  · rw [hq] at hh; exact h4 hh

/-- Element lists followed by the closing parenthesis decode uniquely. -/
theorem elems_append_inj : ∀ (l1 l2 : List PyArg) (r1 r2 : List Char),
    elemsRepr l1 ++ ')' :: r1 = elemsRepr l2 ++ ')' :: r2 → l1 = l2 ∧ r1 = r2 := by
  intro l1
  induction l1 with
  | nil =>
    intro l2 r1 r2 h
    cases l2 with
    | nil =>
      simp only [elemsRepr, List.nil_append, List.cons.injEq, true_and] at h
      exact ⟨rfl, h⟩
    | cons v t =>
      exfalso
      cases t with
      | nil =>
        simp only [elemsRepr, List.nil_append] at h
        exact cons_ne_pyRepr_append v ')' _ _ (by decide) (by decide) (by decide) (by decide) h
      | cons w ws =>
        simp only [elemsRepr, List.nil_append, List.append_assoc] at h
        exact cons_ne_pyRepr_append v ')' _ _ (by decide) (by decide) (by decide) (by decide) h
  | cons v1 t1 ih =>
    intro l2 r1 r2 h
    cases l2 with
    | nil =>
      exfalso
      cases t1 with
      | nil =>
        simp only [elemsRepr, List.nil_append] at h
        exact cons_ne_pyRepr_append v1 ')' _ _ (by decide) (by decide) (by decide) (by decide)
          h.symm
      | cons w ws =>
        simp only [elemsRepr, List.nil_append, List.append_assoc] at h
        exact cons_ne_pyRepr_append v1 ')' _ _ (by decide) (by decide) (by decide) (by decide)
          h.symm
    | cons v2 t2 =>
      rcases t1 with - | ⟨w1, ws1⟩ <;> rcases t2 with - | ⟨w2, ws2⟩
      · simp only [elemsRepr] at h
        obtain ⟨rfl, hr⟩ := pyRepr_append_inj v1 v2 _ _
          (head_const_notDigit ')' (by decide) r1) (head_const_notDigit ')' (by decide) r2) h
        simp only [List.cons.injEq, true_and] at hr
        exact ⟨rfl, hr⟩
      · exfalso
        simp only [elemsRepr, List.append_assoc] at h
        obtain ⟨-, hr⟩ := pyRepr_append_inj v1 v2 _ _
          (head_const_notDigit ')' (by decide) r1) (head_const_notDigit ',' (by decide) _) h
        simp only [List.cons.injEq] at hr
        exact absurd hr.1 (by decide)
      · exfalso
        simp only [elemsRepr, List.append_assoc] at h
        obtain ⟨-, hr⟩ := pyRepr_append_inj v1 v2 _ _
          (head_const_notDigit ',' (by decide) _) (head_const_notDigit ')' (by decide) r2) h
        simp only [List.cons.injEq] at hr
        exact absurd hr.1 (by decide)
      · simp only [elemsRepr, List.append_assoc] at h
        obtain ⟨rfl, hr⟩ := pyRepr_append_inj v1 v2 _ _
          (head_const_notDigit ',' (by decide) _) (head_const_notDigit ',' (by decide) _) h
        simp only [List.append_eq, List.cons_append, List.cons.injEq, true_and] at hr
        obtain ⟨ht, hr'⟩ := ih (w2 :: ws2) r1 r2 hr
        rw [ht]
        exact ⟨rfl, hr'⟩

theorem strTuple_append_inj : ∀ (a1 a2 : List PyArg) (r1 r2 : List Char),
    strTuple a1 ++ r1 = strTuple a2 ++ r2 → a1 = a2 ∧ r1 = r2 := by
  intro a1 a2 r1 r2 h
  rcases a1 with - | ⟨v1, - | ⟨w1, vs1⟩⟩ <;> rcases a2 with - | ⟨v2, - | ⟨w2, vs2⟩⟩ <;>
    simp only [strTuple, elemsRepr, List.cons_append, List.append_assoc, List.nil_append,
      List.cons.injEq, true_and] at h
  · exact ⟨rfl, h⟩
  · exact absurd h (cons_ne_pyRepr_append v2 ')' _ _ (by decide) (by decide) (by decide) (by decide))
  · exact absurd h (cons_ne_pyRepr_append v2 ')' _ _ (by decide) (by decide) (by decide) (by decide))
  · exact absurd h.symm
      (cons_ne_pyRepr_append v1 ')' _ _ (by decide) (by decide) (by decide) (by decide))
  · obtain ⟨rfl, hr⟩ := pyRepr_append_inj v1 v2 _ _
      (head_const_notDigit ',' (by decide) _) (head_const_notDigit ',' (by decide) _) h
    simp only [List.cons.injEq, true_and] at hr
    exact ⟨rfl, hr⟩
  · obtain ⟨-, hr⟩ := pyRepr_append_inj v1 v2 _ _
      (head_const_notDigit ',' (by decide) _) (head_const_notDigit ',' (by decide) _) h
    simp only [List.cons.injEq] at hr
    exact absurd hr.2.1 (by decide)
  · exact absurd h.symm
      (cons_ne_pyRepr_append v1 ')' _ _ (by decide) (by decide) (by decide) (by decide))
  · obtain ⟨-, hr⟩ := pyRepr_append_inj v1 v2 _ _
      (head_const_notDigit ',' (by decide) _) (head_const_notDigit ',' (by decide) _) h
    simp only [List.cons.injEq] at hr
    exact absurd hr.2.1 (by decide)
  · have h' : elemsRepr (v1 :: w1 :: vs1) ++ ')' :: r1 =
        elemsRepr (v2 :: w2 :: vs2) ++ ')' :: r2 := by
      simp only [elemsRepr, List.cons_append, List.append_assoc]
      exact h
    obtain ⟨he, hr⟩ := elems_append_inj _ _ _ _ h'
    exact ⟨he, hr⟩

theorem kwEntries_append_inj : ∀ (l1 l2 : List (String × PyArg)) (r1 r2 : List Char),
    kwEntriesRepr l1 ++ '}' :: r1 = kwEntriesRepr l2 ++ '}' :: r2 → l1 = l2 ∧ r1 = r2 := by
  intro l1
  induction l1 with
  | nil =>
    intro l2 r1 r2 h
    cases l2 with
    | nil =>
      simp only [kwEntriesRepr, List.nil_append, List.cons.injEq, true_and] at h
      exact ⟨rfl, h⟩
    | cons e t =>
      exfalso
      obtain ⟨k, v⟩ := e
      cases t with
      | nil =>
        simp only [kwEntriesRepr, List.nil_append, List.append_assoc, List.cons_append] at h
        exact cons_ne_strRepr_append k '}' _ _ (by decide) (by decide) h
      | cons e' t' =>
        simp only [kwEntriesRepr, List.nil_append, List.append_assoc, List.cons_append] at h
        exact cons_ne_strRepr_append k '}' _ _ (by decide) (by decide) h
  | cons e1 t1 ih =>
    intro l2 r1 r2 h
    obtain ⟨k1, v1⟩ := e1
    cases l2 with
    | nil =>
      exfalso
      cases t1 with
      | nil =>
        simp only [kwEntriesRepr, List.nil_append, List.append_assoc, List.cons_append] at h
        exact cons_ne_strRepr_append k1 '}' _ _ (by decide) (by decide) h.symm
      | cons e' t' =>
        simp only [kwEntriesRepr, List.nil_append, List.append_assoc, List.cons_append] at h
        exact cons_ne_strRepr_append k1 '}' _ _ (by decide) (by decide) h.symm
    | cons e2 t2 =>
      obtain ⟨k2, v2⟩ := e2
      rcases t1 with - | ⟨f1, fs1⟩ <;> rcases t2 with - | ⟨f2, fs2⟩ <;>
        simp only [kwEntriesRepr, List.append_assoc, List.cons_append] at h <;>
        obtain ⟨rfl, hr⟩ := strRepr_append_inj _ _ _ _ h <;>
        simp only [List.cons.injEq, true_and] at hr
      · obtain ⟨rfl, hr'⟩ := pyRepr_append_inj v1 v2 _ _
          (head_const_notDigit '}' (by decide) _) (head_const_notDigit '}' (by decide) _) hr
        simp only [List.cons.injEq, true_and] at hr'
        exact ⟨rfl, hr'⟩
      · obtain ⟨-, hr'⟩ := pyRepr_append_inj v1 v2 _ _
          (head_const_notDigit '}' (by decide) _) (head_const_notDigit ',' (by decide) _) hr
        simp only [List.cons.injEq] at hr'
        exact absurd hr'.1 (by decide)
      · obtain ⟨-, hr'⟩ := pyRepr_append_inj v1 v2 _ _
          (head_const_notDigit ',' (by decide) _) (head_const_notDigit '}' (by decide) _) hr
        simp only [List.cons.injEq] at hr'
        exact absurd hr'.1 (by decide)
      · obtain ⟨rfl, hr'⟩ := pyRepr_append_inj v1 v2 _ _
          (head_const_notDigit ',' (by decide) _) (head_const_notDigit ',' (by decide) _) hr
        simp only [List.append_eq, List.cons_append, List.cons.injEq, true_and] at hr'
        obtain ⟨ht, hrr⟩ := ih (⟨f2.1, f2.2⟩ :: fs2) r1 r2 hr'
        rw [ht]
        exact ⟨rfl, hrr⟩

theorem strDict_append_inj (k1 k2 : List (String × PyArg)) (r1 r2 : List Char)
    (h : strDict k1 ++ r1 = strDict k2 ++ r2) : k1 = k2 ∧ r1 = r2 := by
  simp only [strDict, List.cons_append, List.append_assoc, List.cons.injEq, true_and] at h
  exact kwEntries_append_inj k1 k2 r1 r2 h

theorem cacheLookup_insert : ∀ (cache : CacheMap) (key : List Char) (e : Int × Value),
    cacheLookup (cacheInsert cache key e) key = some e := by
  intro cache key e
  induction cache with
  | nil => simp [cacheInsert, cacheLookup, List.find?]
  | cons hd tl ih =>
    rw [cacheInsert]
    by_cases h : (hd.1 == key) = true
    · rw [if_pos h]
      simp [cacheLookup, List.find?]
    · rw [if_neg h]
      rw [cacheLookup] at ih ⊢
      simp only [List.find?_cons, h]
      exact ih

theorem classify_matches_spec (q : String) : (_classify_query q).1 = classifySpecModel q := by
  unfold _classify_query classifySpecModel specGroups
  by_cases h1 : containsAny (pyLower q) ["ranking", "rank", "best", "top", "projections"] = true
  · simp [h1, List.find?]
  · by_cases h2 : containsAny (pyLower q) ["matchup", "vs", "versus", "against", "playing"] = true
    · simp [h1, h2, List.find?]
    · by_cases h3 : containsAny (pyLower q) ["injury", "injured", "hurt"] = true
      · cases hy : findYearMatch (pyLower q).data <;>
          simp [h1, h2, h3, hy, List.find?]
      · by_cases h4 : containsAny (pyLower q) ["schedule", "games", "playing"] = true
        · simp [h1, h2, h3, h4, List.find?]
        · by_cases h5 : containsAny (pyLower q) ["depth chart", "roster", "lineup"] = true
          · simp [h1, h2, h3, h4, h5, List.find?]
          · simp [h1, h2, h3, h4, h5, List.find?]

theorem classify_lower_invariant (q : String) :
    _classify_query (pyLower q) = _classify_query q := by
  unfold _classify_query
  rw [pyLower_idem]

theorem jsonEscChar_a : jsonEscChar 'a' = ['a'] := by decide

theorem jsonEsc_replicate (n : Nat) :
    jsonEsc (List.replicate n 'a') = List.replicate n 'a' := by
  induction n with
  | zero => simp [jsonEsc]
  | succ n ih =>
    simp only [jsonEsc, List.replicate_succ, List.map_cons, List.flatten_cons, jsonEscChar_a] at ih ⊢
    rw [ih]
    rfl

theorem summ_longTeams (n : Nat) :
    _summarize_context_data (longTeamsBundle n) = Value.dict [("teams", Value.list [Value.dict
      [("id", .str ""), ("name", .str (String.mk (List.replicate n 'a'))), ("market", .str ""),
       ("alias", .str ""), ("conference", .str ""), ("division", .str "")]])] := rfl

theorem len_dumpVal_str (lvl : Nat) (s : String) :
    (dumpVal lvl (.str s)).length = (jsonEsc s.data).length + 2 := by
  simp [dumpVal]

theorem len_dumpVal_dict_ge (lvl : Nat) (e : String × Value) (es : List (String × Value)) :
    (dumpEntries (lvl + 1) (e :: es)).length ≤ (dumpVal lvl (.dict (e :: es))).length := by
  simp [dumpVal]
  omega

theorem len_dumpVal_list_ge (lvl : Nat) (x : Value) (xs : List Value) :
    (dumpItems (lvl + 1) (x :: xs)).length ≤ (dumpVal lvl (.list (x :: xs))).length := by
  simp [dumpVal]
  omega

theorem len_dumpItems_ge (lvl : Nat) (x : Value) (xs : List Value) :
    (dumpVal lvl x).length ≤ (dumpItems lvl (x :: xs)).length := by
  cases xs
  · simp [dumpItems]
  · simp [dumpItems]
    omega

theorem len_dumpEntries_ge_head (lvl : Nat) (k : String) (v : Value)
    (es : List (String × Value)) :
    (dumpVal lvl v).length ≤ (dumpEntries lvl ((k, v) :: es)).length := by
  cases es <;> simp [dumpEntries] <;> omega

theorem len_dumpEntries_ge_tail (lvl : Nat) (k : String) (v : Value) (e : String × Value)
    (es : List (String × Value)) :
    (dumpEntries lvl (e :: es)).length ≤ (dumpEntries lvl ((k, v) :: e :: es)).length := by
  simp [dumpEntries]
  omega

theorem contextStrRaw_longTeams_len (n : Nat) :
    n ≤ (contextStrRaw (longTeamsBundle n)).length := by
  rw [contextStrRaw, summ_longTeams]
  have h1 := len_dumpVal_dict_ge 0 ("teams", Value.list [Value.dict
      [("id", .str ""), ("name", .str (String.mk (List.replicate n 'a'))), ("market", .str ""),
       ("alias", .str ""), ("conference", .str ""), ("division", .str "")]]) []
  have h2 := len_dumpEntries_ge_head 1 "teams" (Value.list [Value.dict
      [("id", .str ""), ("name", .str (String.mk (List.replicate n 'a'))), ("market", .str ""),
       ("alias", .str ""), ("conference", .str ""), ("division", .str "")]]) []
  have h3 := len_dumpVal_list_ge 1 (Value.dict
      [("id", .str ""), ("name", .str (String.mk (List.replicate n 'a'))), ("market", .str ""),
       ("alias", .str ""), ("conference", .str ""), ("division", .str "")]) []
  have h4 := len_dumpItems_ge 2 (Value.dict
      [("id", .str ""), ("name", .str (String.mk (List.replicate n 'a'))), ("market", .str ""),
       ("alias", .str ""), ("conference", .str ""), ("division", .str "")]) []
  have h5 := len_dumpVal_dict_ge 2 ("id", Value.str "")
      [("name", .str (String.mk (List.replicate n 'a'))), ("market", .str ""),
       ("alias", .str ""), ("conference", .str ""), ("division", .str "")]
  have h6 := len_dumpEntries_ge_tail 3 "id" (Value.str "")
      ("name", Value.str (String.mk (List.replicate n 'a')))
      [("market", .str ""), ("alias", .str ""), ("conference", .str ""), ("division", .str "")]
  have h7 := len_dumpEntries_ge_head 3 "name" (Value.str (String.mk (List.replicate n 'a')))
      [("market", .str ""), ("alias", .str ""), ("conference", .str ""), ("division", .str "")]
  have h8 := len_dumpVal_str 3 (String.mk (List.replicate n 'a'))
  rw [jsonEsc_replicate] at h8
  norm_num at h1 h3 h5
  simp only [jsonDumps, List.length_append]
  simp only [List.length_replicate] at h8
  omega

theorem nfl_get_teams_eq (u : String → Except String Value) :
    nfl_get_teams u = (u "en/league/hierarchy", ["en/league/hierarchy"]) := rfl

theorem nfl_get_schedule_eq (u : String → Except String Value) :
    nfl_get_schedule u 2023 "REG" =
      (u "en/games/2023/REG/schedule", ["en/games/2023/REG/schedule"]) := rfl

theorem injuries_endpoint_flat (y : String) :
    ("en/seasons/" ++ y ++ "/" ++ "REG" ++ "/" ++ "1" ++ "/injuries" : String) =
      "en/seasons/" ++ y ++ "/REG/1/injuries" := by
  simp [String.append_assoc]

theorem nfl_get_weekly_injuries_eq (u : String → Except String Value) (y : String) :
    nfl_get_weekly_injuries u y "REG" "1" =
      (u ("en/seasons/" ++ y ++ "/REG/1/injuries"),
       ["en/seasons/" ++ y ++ "/REG/1/injuries"]) := by
  have h : nfl_get_weekly_injuries u y "REG" "1" =
      (u ("en/seasons/" ++ y ++ "/" ++ "REG" ++ "/" ++ "1" ++ "/injuries"),
       ["en/seasons/" ++ y ++ "/" ++ "REG" ++ "/" ++ "1" ++ "/injuries"]) := rfl
  rw [h, injuries_endpoint_flat]

theorem fetch_wrap_snd (p : Except String Value × List String) :
    (match p with
     | (Except.ok v, calls) => (v, calls)
     | (Except.error e, calls) => (Value.dict [("error", Value.str e)], calls)).2 = p.2 := by
  rcases p with ⟨res, calls⟩
  cases res <;> rfl

theorem fetch_wrap_fst_err (p : Except String Value × List String) (e : String)
    (hp : p.1 = Except.error e) :
    (match p with
     | (Except.ok v, calls) => (v, calls)
     | (Except.error e, calls) => (Value.dict [("error", Value.str e)], calls)).1 =
      Value.dict [("error", Value.str e)] := by
  rcases p with ⟨res, calls⟩
  cases res with
  | ok v => simp at hp
  | error e' =>
    simp only [Except.error.injEq] at hp
    rw [hp]

theorem fetch_trace_len (up : String → Except String Value) (qt : String)
    (params : List (String × String)) :
    ((_fetch_relevant_data up qt params).2).length = 1 := by
  unfold _fetch_relevant_data
  rw [fetch_wrap_snd]
  simp only [nfl_get_teams_eq, nfl_get_schedule_eq, nfl_get_weekly_injuries_eq]
  repeat' split
  all_goals rfl

theorem fetch_trace_indep (up up' : String → Except String Value) (qt : String)
    (params : List (String × String)) :
    (_fetch_relevant_data up qt params).2 = (_fetch_relevant_data up' qt params).2 := by
  unfold _fetch_relevant_data
  rw [fetch_wrap_snd, fetch_wrap_snd]
  simp only [nfl_get_teams_eq, nfl_get_schedule_eq, nfl_get_weekly_injuries_eq]
  repeat' split
  all_goals rfl

theorem fetch_error_ctx (up : String → Except String Value) (qt : String)
    (params : List (String × String)) (e : String) (h : ∀ ep, up ep = .error e) :
    (_fetch_relevant_data up qt params).1 = Value.dict [("error", Value.str e)] := by
  unfold _fetch_relevant_data
  rw [fetch_wrap_fst_err _ e]
  simp only [nfl_get_teams_eq, nfl_get_schedule_eq, nfl_get_weekly_injuries_eq]
  repeat' split
  all_goals simp [h]

theorem classify_injuries (q : String)
    (h1 : containsAny (pyLower q) ["ranking", "rank", "best", "top", "projections"] = false)
    (h2 : containsAny (pyLower q) ["matchup", "vs", "versus", "against", "playing"] = false)
    (h3 : containsAny (pyLower q) ["injury", "injured", "hurt"] = true) :
    _classify_query q = ("injuries",
      match findYearMatch (pyLower q).data with
      | some y => [("year", y)]
      | none => []) := by
  unfold _classify_query
  simp only [h1, h2, h3]
  cases hy : findYearMatch (pyLower q).data <;> simp [hy]

/-- C9: for a question classified as `injuries` (an injury keyword present,
no earlier group matching), the leftmost year-pattern occurrence (`20`
followed by two digits), when found, is recorded as the `year` parameter
and used for the weekly-injuries fetch; otherwise the fetch uses year
"2023"; in both cases the season type is "REG" and the week is "1". -/
theorem C9_injuries_year_parameters (q : String) (upstream : String → Except String Value)
    (h1 : containsAny (pyLower q) ["ranking", "rank", "best", "top", "projections"] = false)
    (h2 : containsAny (pyLower q) ["matchup", "vs", "versus", "against", "playing"] = false)
    (h3 : containsAny (pyLower q) ["injury", "injured", "hurt"] = true) :
    (_classify_query q).1 = "injuries"
    ∧ (∀ y, findYearMatch (pyLower q).data = some y → (_classify_query q).2 = [("year", y)])
    ∧ (findYearMatch (pyLower q).data = none → (_classify_query q).2 = [])
    ∧ (_fetch_relevant_data upstream (_classify_query q).1 (_classify_query q).2).2
        = ["en/seasons/" ++ (findYearMatch (pyLower q).data).getD "2023" ++ "/REG/1/injuries"] := by
  have hcl := classify_injuries q h1 h2 h3
  rw [hcl]
  cases hy : findYearMatch (pyLower q).data with
  | some y =>
    refine ⟨rfl, ?_, ?_, ?_⟩
    · intro y' hy'
      rw [Option.some.inj hy']
    · intro hn
      simp at hn
    · unfold _fetch_relevant_data
      rw [fetch_wrap_snd]
      simp [nfl_get_weekly_injuries_eq, paramsGetD, List.find?]
  | none =>
    refine ⟨rfl, ?_, ?_, ?_⟩
    · intro y' hy'
      simp at hy'
    · intro hn
      simp
    · unfold _fetch_relevant_data
      rw [fetch_wrap_snd]
      simp [nfl_get_weekly_injuries_eq, paramsGetD, List.find?]

/-- C5: `_classify_query` matches the five keyword groups case-insensitively
in the fixed order player rankings, matchups, injuries, schedule, depth
chart, returning the first group with any matching keyword (the spec-side
`classifySpecModel`); lowercasing the question does not change the outcome;
a question containing "playing" and no rankings keyword resolves to
`matchups` (not `schedule`); a question matching no group yields
`general`. -/
theorem C5_classifier_priority (q : String) :
    (_classify_query q).1 = classifySpecModel q
    ∧ _classify_query (pyLower q) = _classify_query q
    ∧ (pyIn "playing".toList (pyLower q).toList = true →
        containsAny (pyLower q) ["ranking", "rank", "best", "top", "projections"] = false →
        (_classify_query q).1 = "matchups")
    ∧ (containsAny (pyLower q) ["ranking", "rank", "best", "top", "projections"] = false →
        containsAny (pyLower q) ["matchup", "vs", "versus", "against", "playing"] = false →
        containsAny (pyLower q) ["injury", "injured", "hurt"] = false →
        containsAny (pyLower q) ["schedule", "games", "playing"] = false →
        containsAny (pyLower q) ["depth chart", "roster", "lineup"] = false →
        _classify_query q = ("general", [])) := by
  refine ⟨classify_matches_spec q, classify_lower_invariant q, ?_, ?_⟩
  · intro hp h1
    have hg2 : containsAny (pyLower q) ["matchup", "vs", "versus", "against", "playing"] = true := by
      unfold containsAny
      simp only [List.any_eq_true]
      exact ⟨"playing", by simp, hp⟩
    unfold _classify_query
    simp [h1, hg2]
  · intro h1 h2 h3 h4 h5
    unfold _classify_query
    simp [h1, h2, h3, h4, h5]

/-- C3: when the Data Gateway fails for the resolved intent, the fetch
result is a context payload carrying only an `error` field, the Answer
Generator is still invoked on that payload, and `process_query` returns a
well-formed response with `query`, `answer` and `data_sources`; the fetch
error is never propagated. -/
theorem C3_fetch_failure_degrades (q e : String) (upstream : String → Except String Value)
    (llm : List Message → Except String String)
    (h : ∀ ep, upstream ep = .error e) :
    (_fetch_relevant_data upstream (_classify_query q).1 (_classify_query q).2).1
        = Value.dict [("error", Value.str e)]
    ∧ (process_query upstream llm q).1.query = q
    ∧ (process_query upstream llm q).1.answer
        = generate_response llm q (Value.dict [("error", Value.str e)])
    ∧ (process_query upstream llm q).1.data_sources = get_data_sources (_classify_query q).1 := by
  have hctx := fetch_error_ctx upstream (_classify_query q).1 (_classify_query q).2 e h
  refine ⟨hctx, rfl, ?_, rfl⟩
  show generate_response llm q
      (_fetch_relevant_data upstream (_classify_query q).1 (_classify_query q).2).1
    = generate_response llm q (Value.dict [("error", Value.str e)])
  rw [hctx]

/-- C2 (amended): `process_query`'s fetch step calls the Data Gateway
directly, not through the Cache Layer (`with_cache` wraps only the HTTP
route handlers): each question triggers exactly one upstream invocation
whose endpoint is independent of the upstream's responses and of the
generator, so two identical questions invoke the Data Gateway once each
(twice in total), while `data_sources` stays identical across runs. -/
theorem C2_fetch_bypasses_cache (q : String) (up1 up2 : String → Except String Value)
    (llm1 llm2 : List Message → Except String String) :
    ((process_query up1 llm1 q).2).length = 1
    ∧ (process_query up1 llm1 q).2 = (process_query up2 llm2 q).2
    ∧ (process_query up1 llm1 q).1.data_sources = (process_query up2 llm2 q).1.data_sources :=
  ⟨fetch_trace_len up1 _ _, fetch_trace_indep up1 up2 _ _, rfl⟩

/-- C4: for any key and ttl, a `with_cache` call finding an entry with
`now - createdAt < ttl` returns the stored value without invoking the
wrapped function and leaves the cache unchanged; a call finding
`now - createdAt >= ttl` invokes the wrapped function again and stores
`(now, result)` under the key. -/
theorem C4_cache_ttl_semantics (expiry : Int) (funcName : String) (args : List PyArg)
    (kwargs : List (String × PyArg)) (now created : Int) (v r : Value)
    (func : Except String Value) (cache : CacheMap)
    (hentry : cacheLookup cache (cacheKey funcName args kwargs) = some (created, v)) :
    (now - created < expiry →
      withCache expiry funcName args kwargs now func cache = (.ok v, cache, false))
    ∧ (expiry ≤ now - created →
        withCache expiry funcName args kwargs now (.ok r) cache
          = (.ok r, cacheInsert cache (cacheKey funcName args kwargs) (now, r), true)
        ∧ cacheLookup (cacheInsert cache (cacheKey funcName args kwargs) (now, r))
            (cacheKey funcName args kwargs) = some (now, r)) := by
  constructor
  · intro hlt
    simp [withCache, hentry, hlt]
  · intro hge
    refine ⟨?_, cacheLookup_insert cache _ _⟩
    simp [withCache, hentry, show ¬(now - created < expiry) from by omega]

/-- C6: if the wrapped function raises when invoked — on a miss or on an
expired entry — `with_cache` propagates the failure and stores nothing:
the cache mapping is unchanged (no negative caching). -/
theorem C6_no_negative_caching (expiry : Int) (funcName : String) (args : List PyArg)
    (kwargs : List (String × PyArg)) (now : Int) (e : String) (cache : CacheMap) :
    (cacheLookup cache (cacheKey funcName args kwargs) = none →
      withCache expiry funcName args kwargs now (.error e) cache = (.error e, cache, true))
    ∧ (∀ ts v, cacheLookup cache (cacheKey funcName args kwargs) = some (ts, v) →
        expiry ≤ now - ts →
        withCache expiry funcName args kwargs now (.error e) cache = (.error e, cache, true)) := by
  constructor
  · intro hmiss
    simp [withCache, hmiss]
  · intro ts v hentry hge
    simp [withCache, hentry, show ¬(now - ts < expiry) from by omega]

/-- C7 (amended): any failure of the Answer Generator call makes
`generate_response` return the apologetic fallback string with the fixed
head "Sorry, I couldn't process your request at the moment. Error: "
followed by the error's text — the failure is not propagated and the
pipeline completes with a non-error response. -/
theorem C7_fallback_answer (q e : String) (upstream : String → Except String Value)
    (llm : List Message → Except String String) (h : ∀ msgs, llm msgs = .error e) :
    (∀ context_data, generate_response llm q context_data = fallbackHead ++ e)
    ∧ (process_query upstream llm q).1.answer = fallbackHead ++ e
    ∧ (process_query upstream llm q).1.query = q := by
  have hg : ∀ cd, generate_response llm q cd = fallbackHead ++ e := by
    intro cd
    unfold generate_response
    rw [h]
  exact ⟨hg, hg _, rfl⟩

/-- C10: the `query` field of the mapping `process_query` returns equals
the caller's question character for character; classification lowercases
only a local copy, so classifying the lowercased question gives the same
result as classifying the original. -/
theorem C10_query_passthrough (upstream : String → Except String Value)
    (llm : List Message → Except String String) (q : String) :
    (process_query upstream llm q).1.query = q
    ∧ _classify_query (pyLower q) = _classify_query q :=
  ⟨rfl, classify_lower_invariant q⟩

/-- C1 (amended): for every context bundle, the serialized textual context
never exceeds 20000 characters plus the 39-character truncation marker
(20039 total); when the raw serialization exceeds 20000 characters the
result is its first 20000 characters with the marker appended — the marker
stands at the end of the text — and otherwise the text is passed through
unchanged (no marker is added). -/
theorem C1_context_truncation_bounded (cd : Value) :
    (contextStr cd).length ≤ 20039
    ∧ (20000 < (contextStrRaw cd).length →
        contextStr cd = (contextStrRaw cd).take 20000 ++ TRUNC_MARKER.data
        ∧ TRUNC_MARKER.data <:+ contextStr cd
        ∧ (contextStr cd).length = 20039)
    ∧ ((contextStrRaw cd).length ≤ 20000 → contextStr cd = contextStrRaw cd) := by
  have hm : TRUNC_MARKER.data.length = 39 := rfl
  unfold contextStr limitContextStr
  by_cases h : 20000 < (contextStrRaw cd).length
  · rw [if_pos h]
    refine ⟨?_, fun _ => ⟨rfl, ⟨(contextStrRaw cd).take 20000, rfl⟩, ?_⟩,
      fun hle => absurd h (by omega)⟩
    · simp only [List.length_append, List.length_take, hm]
      omega
    · simp only [List.length_append, List.length_take, hm]
      omega
  · rw [if_neg h]
    exact ⟨by omega, fun hgt => absurd hgt h, fun _ => rfl⟩

/-- C1 counterexample: a teams bundle whose team name is 20100 characters
long drives the serialized context to 20039 characters — the claim's
20000-character ceiling on the produced text is exceeded, because the
marker is appended after truncating at the ceiling. -/
theorem C1_ceiling_counterexample :
    ¬ ((contextStr (longTeamsBundle 20100)).length ≤ 20000) := by
  have hraw := contextStrRaw_longTeams_len 20100
  have hm : TRUNC_MARKER.data.length = 39 := rfl
  unfold contextStr limitContextStr
  rw [if_pos (by omega)]
  simp only [List.length_append, List.length_take, hm]
  omega

/-- C1 witness: the truncation case of the amended claim at the concrete
oversized bundle. -/
theorem C1_context_truncation_witness :
    20000 < (contextStrRaw (longTeamsBundle 20100)).length
    ∧ TRUNC_MARKER.data <:+ contextStr (longTeamsBundle 20100)
    ∧ (contextStr (longTeamsBundle 20100)).length = 20039 := by
  have h : 20000 < (contextStrRaw (longTeamsBundle 20100)).length := by
    have := contextStrRaw_longTeams_len 20100
    omega
  have hc := (C1_context_truncation_bounded (longTeamsBundle 20100)).2.1 h
  exact ⟨h, hc.2.1, hc.2.2⟩

/-- C2 counterexample: two identical questions, asked of a fixed Data
Gateway within any ttl window, invoke the gateway twice — not at most
once — so the orchestrator's fetch is not served by the Cache Layer. -/
theorem C2_cache_counterexample :
    ¬ (((process_query (fun _ => .ok (.dict [])) (fun _ => .ok "answer")
          "when are the packers playing").2 ++
        (process_query (fun _ => .ok (.dict [])) (fun _ => .ok "answer")
          "when are the packers playing").2).length ≤ 1) := by decide

/-- C3 witness: the degradation contract at a concrete failing gateway. -/
theorem C3_fetch_failure_witness :
    (_fetch_relevant_data (fun _ => Except.error "boom")
        (_classify_query "top players").1 (_classify_query "top players").2).1
      = Value.dict [("error", Value.str "boom")]
    ∧ (process_query (fun _ => Except.error "boom") (fun _ => Except.ok "fine")
        "top players").1.query = "top players" := by
  have h := C3_fetch_failure_degrades "top players" "boom" (fun _ => .error "boom") (fun _ => .ok "fine")
    (fun ep => rfl)
  exact ⟨h.1, h.2.1⟩

/-- C4 witness: the ttl semantics at a concrete entry — a fresh hit at
`now = 100` and an expired hit at `now = 2000` against a `createdAt = 0`
entry with a 900-unit expiry. -/
theorem C4_cache_ttl_witness :
    withCache 900 "get_teams" [] [] 100 (.ok (Value.dict [("fresh", .int 1)]))
        [(cacheKey "get_teams" [] [], (0, Value.dict []))]
      = (.ok (Value.dict []), [(cacheKey "get_teams" [] [], (0, Value.dict []))], false)
    ∧ (withCache 900 "get_teams" [] [] 2000 (.ok (Value.dict [("r", .int 2)]))
          [(cacheKey "get_teams" [] [], (0, Value.dict []))]
        = (.ok (Value.dict [("r", .int 2)]),
           cacheInsert [(cacheKey "get_teams" [] [], (0, Value.dict []))]
             (cacheKey "get_teams" [] []) (2000, Value.dict [("r", .int 2)]), true)
       ∧ cacheLookup (cacheInsert [(cacheKey "get_teams" [] [], (0, Value.dict []))]
             (cacheKey "get_teams" [] []) (2000, Value.dict [("r", .int 2)]))
           (cacheKey "get_teams" [] []) = some (2000, Value.dict [("r", .int 2)])) :=
  ⟨(C4_cache_ttl_semantics 900 "get_teams" [] [] 100 0 (Value.dict []) (Value.dict [("r", .int 2)])
      (.ok (Value.dict [("fresh", .int 1)]))
      [(cacheKey "get_teams" [] [], (0, Value.dict []))] rfl).1 (by decide),
   (C4_cache_ttl_semantics 900 "get_teams" [] [] 2000 0 (Value.dict []) (Value.dict [("r", .int 2)])
      (.ok (Value.dict [("fresh", .int 1)]))
      [(cacheKey "get_teams" [] [], (0, Value.dict []))] rfl).2 (by decide)⟩

/-- C5 witness: a "playing" question resolves to `matchups`, and a
keyword-free question resolves to `general`. -/
theorem C5_classifier_witness :
    (_classify_query "Who is playing tonight").1 = "matchups"
    ∧ _classify_query "zzz" = ("general", []) := by
  refine ⟨(C5_classifier_priority "Who is playing tonight").2.2.1 (by decide) (by decide), ?_⟩
  exact (C5_classifier_priority "zzz").2.2.2 (by decide) (by decide) (by decide) (by decide) (by decide)

/-- C6 witness: a failing compute on an empty cache and on an expired
entry both propagate the error and leave the cache unchanged. -/
theorem C6_no_negative_caching_witness :
    withCache 3600 "get_teams" [] [] 5 (.error "boom") [] = (.error "boom", [], true)
    ∧ withCache 900 "get_teams" [] [] 4000 (.error "down")
        [(cacheKey "get_teams" [] [], (0, Value.dict []))]
      = (.error "down", [(cacheKey "get_teams" [] [], (0, Value.dict []))], true) :=
  ⟨(C6_no_negative_caching 3600 "get_teams" [] [] 5 "boom" []).1 rfl,
   (C6_no_negative_caching 900 "get_teams" [] [] 4000 "down"
      [(cacheKey "get_teams" [] [], (0, Value.dict []))]).2 0 (Value.dict []) rfl (by decide)⟩

/-- C7 counterexample: two different generator failures produce two
different answers, so the fallback is not one fixed string — it embeds
the error's text after the fixed apologetic head. -/
theorem C7_fixed_string_counterexample :
    generate_response (fun _ => .error "timeout") "q" (Value.dict [])
      ≠ generate_response (fun _ => .error "offline") "q" (Value.dict []) := by decide

/-- C7 witness: the fallback contract at a concrete failing generator. -/
theorem C7_fallback_witness :
    generate_response (fun _ => .error "boom") "hello" (Value.dict [])
        = fallbackHead ++ "boom"
    ∧ (process_query (fun _ => Except.ok (Value.dict [])) (fun _ => .error "boom")
        "hello").1.answer = fallbackHead ++ "boom" := by
  have h := C7_fallback_answer "hello" "boom" (fun _ => Except.ok (Value.dict []))
    (fun _ => .error "boom") (fun msgs => rfl)
  exact ⟨h.1 _, h.2.1⟩

/-- C9 witness: "injury report for 2024 week" classifies as `injuries`
with year "2024" and fetches `en/seasons/2024/REG/1/injuries`. -/
theorem C9_injuries_witness :
    (_classify_query "injury report for 2024 week").1 = "injuries"
    ∧ (_classify_query "injury report for 2024 week").2 = [("year", "2024")]
    ∧ (_fetch_relevant_data (fun _ => Except.ok (Value.dict []))
        (_classify_query "injury report for 2024 week").1
        (_classify_query "injury report for 2024 week").2).2
        = ["en/seasons/2024/REG/1/injuries"] := by
  have h := C9_injuries_year_parameters "injury report for 2024 week" (fun _ => Except.ok (Value.dict []))
    (by decide) (by decide) (by decide)
  refine ⟨h.1, h.2.1 "2024" (by decide), ?_⟩
  rw [h.2.2.2]
  rfl

/-- C8: the `with_cache` key `f"{name}:{str(args)}:{str(kwargs)}"` is a
deterministic function of the wrapped operation's name and its positional
and keyword arguments, and for colon-free operation names (Python
identifiers) two calls collide on the same cache entry exactly when name,
positional tuple and keyword mapping all coincide: equal arguments map to
the same entry, different arguments never do. -/
theorem C8_cache_key_deterministic_injective (n1 n2 : String) (a1 a2 : List PyArg)
    (k1 k2 : List (String × PyArg)) (h1 : ':' ∉ n1.data) (h2 : ':' ∉ n2.data) :
    cacheKey n1 a1 k1 = cacheKey n2 a2 k2 ↔ n1 = n2 ∧ a1 = a2 ∧ k1 = k2 := by
  constructor
  · intro h
    unfold cacheKey at h
    have hp1 : ∀ c ∈ n1.data, (!(c == ':')) = true := by
      intro c hc
      have hne : c ≠ ':' := fun e => h1 (e ▸ hc)
      simp [hne]
    have hp2 : ∀ c ∈ n2.data, (!(c == ':')) = true := by
      intro c hc
      have hne : c ≠ ':' := fun e => h2 (e ▸ hc)
      simp [hne]
    have hh1 : ∀ c, ((':' :: (strTuple a1 ++ ':' :: strDict k1)).head? = some c) →
        (!(c == ':')) = false := by
      intro c hc
      simp only [List.head?_cons, Option.some.injEq] at hc
      rw [← hc]
      simp
    have hh2 : ∀ c, ((':' :: (strTuple a2 ++ ':' :: strDict k2)).head? = some c) →
        (!(c == ':')) = false := by
      intro c hc
      simp only [List.head?_cons, Option.some.injEq] at hc
      rw [← hc]
      simp
    obtain ⟨hn, hrest⟩ := run_sep (p := fun c => !(c == ':')) n1.data n2.data _ _ hp1 hp2 hh1 hh2 h
    simp only [List.cons.injEq, true_and] at hrest
    obtain ⟨ha, hrest2⟩ := strTuple_append_inj a1 a2 _ _ hrest
    simp only [List.cons.injEq, true_and] at hrest2
    obtain ⟨hk, -⟩ := strDict_append_inj k1 k2 [] [] (by simpa using hrest2)
    refine ⟨?_, ha, hk⟩
    cases n1
    cases n2
    exact congrArg String.mk (by simpa using hn)
  · rintro ⟨rfl, rfl, rfl⟩
    rfl

/-- C8 witness: the key derivation applied at `get_standings`-shaped calls;
the injectivity instance separates a 2023 call from a 2024 call. -/
theorem C8_cache_key_witness :
    (':' ∉ "get_standings".data) ∧
    (cacheKey "get_standings" [.str "2023", .str "REG"] [] =
       cacheKey "get_standings" [.str "2024", .str "REG"] [] ↔
     ("get_standings" : String) = "get_standings" ∧
       [PyArg.str "2023", PyArg.str "REG"] = [PyArg.str "2024", PyArg.str "REG"] ∧
       ([] : List (String × PyArg)) = []) :=
  ⟨by decide, C8_cache_key_deterministic_injective "get_standings" "get_standings" _ _ _ _
    (by decide) (by decide)⟩

end NFLRadar

